import Mathlib

/-!
Verification development for the Chronos XER parsing-and-analysis engine.

The JavaScript source is shallowly embedded: JS numbers are modelled as an
inductive over rationals extended with the two infinities and NaN (no negative
zero, since it is indistinguishable from zero in every operation the engine
performs), JS dates as their millisecond time value (a rational), records as
association lists, and every function under test as a computable Lean
definition translated clause by clause from the source.
-/

namespace Chronos

/-! ## Kernel-computable rational arithmetic

The standard rational operations are `@[irreducible]`, so the model uses
these equivalent `mkRat`-based operations (bridged to the standard ones by
the `q…_eq` lemmas below) to keep every concrete evaluation reducible. -/

def qAdd (a b : ℚ) : ℚ :=
  mkRat (a.num * b.den + b.num * a.den) (a.den * b.den)

def qNeg (a : ℚ) : ℚ := mkRat (-a.num) a.den

def qSub (a b : ℚ) : ℚ := qAdd a (qNeg b)

def qMul (a b : ℚ) : ℚ := mkRat (a.num * b.num) (a.den * b.den)

def qDiv (a b : ℚ) : ℚ :=
  mkRat (a.num * (if b.num < 0 then -(b.den : ℤ) else (b.den : ℤ)))
    (a.den * b.num.natAbs)

def qFloor (a : ℚ) : ℤ := a.num.fdiv a.den

/-- A JavaScript number: NaN, the infinities, or a finite value (rational,
standing in for the IEEE double actually used; every comparison the claims
exercise is far from any double-rounding boundary). -/
inductive JSNum where
  | nan : JSNum
  | posInf : JSNum
  | negInf : JSNum
  | fin (q : ℚ) : JSNum
deriving DecidableEq, Repr

namespace JSNum

/-- JS addition. -/
def add : JSNum → JSNum → JSNum
  | nan, _ => nan
  | _, nan => nan
  | posInf, negInf => nan
  | negInf, posInf => nan
  | posInf, _ => posInf
  | _, posInf => posInf
  | negInf, _ => negInf
  | _, negInf => negInf
  | fin a, fin b => fin (qAdd a b)

/-- JS unary minus. -/
def neg : JSNum → JSNum
  | nan => nan
  | posInf => negInf
  | negInf => posInf
  | fin a => fin (qNeg a)

/-- JS subtraction. -/
def sub (a b : JSNum) : JSNum := add a (neg b)

/-- JS multiplication. -/
def mul : JSNum → JSNum → JSNum
  | nan, _ => nan
  | _, nan => nan
  | posInf, posInf => posInf
  | posInf, negInf => negInf
  | negInf, posInf => negInf
  | negInf, negInf => posInf
  | posInf, fin b => if b = 0 then nan else if 0 < b then posInf else negInf
  | fin a, posInf => if a = 0 then nan else if 0 < a then posInf else negInf
  | negInf, fin b => if b = 0 then nan else if 0 < b then negInf else posInf
  | fin a, negInf => if a = 0 then nan else if 0 < a then negInf else posInf
  | fin a, fin b => fin (qMul a b)

/-- JS division. -/
def div : JSNum → JSNum → JSNum
  | nan, _ => nan
  | _, nan => nan
  | posInf, posInf => nan
  | posInf, negInf => nan
  | negInf, posInf => nan
  | negInf, negInf => nan
  | posInf, fin b => if 0 ≤ b then posInf else negInf
  | negInf, fin b => if 0 ≤ b then negInf else posInf
  | fin _, posInf => fin 0
  | fin _, negInf => fin 0
  | fin a, fin b =>
      if b = 0 then (if a = 0 then nan else if 0 < a then posInf else negInf)
      else fin (qDiv a b)

/-- JS strict less-than (false whenever NaN is involved). -/
def ltB : JSNum → JSNum → Bool
  | nan, _ => false
  | _, nan => false
  | negInf, negInf => false
  | negInf, _ => true
  | _, negInf => false
  | posInf, _ => false
  | fin _, posInf => true
  | fin a, fin b => decide (a < b)

/-- JS less-or-equal (false whenever NaN is involved). -/
def leB : JSNum → JSNum → Bool
  | nan, _ => false
  | _, nan => false
  | negInf, _ => true
  | _, negInf => false
  | _, posInf => true
  | posInf, fin _ => false
  | fin a, fin b => decide (a ≤ b)

/-- JS Math.min of two numbers. -/
def min2 (a b : JSNum) : JSNum :=
  if a = nan ∨ b = nan then nan else if leB a b then a else b

/-- JS Math.max of two numbers. -/
def max2 (a b : JSNum) : JSNum :=
  if a = nan ∨ b = nan then nan else if leB a b then b else a

end JSNum

/-- JS Math.round on a finite value: round half toward positive infinity. -/
def jsRound (q : ℚ) : ℚ := (qFloor (qAdd q (qDiv 1 2)) : ℤ)

/-- A typed field value as produced by the schema projector: a string, a
number, a boolean, the JS null, or a Date (carried as its millisecond time
value, which is what every consumer of a date in the engine reads via
valueOf/getTime). -/
inductive TypedValue where
  | vStr (s : String) : TypedValue
  | vNum (n : JSNum) : TypedValue
  | vBool (b : Bool) : TypedValue
  | vNull : TypedValue
  | vDate (ms : ℚ) : TypedValue
deriving DecidableEq, Repr

/-- A raw record from the tokenizer: field name to raw string value. -/
abbrev RawRec := List (String × String)

/-- A typed record after schema projection. -/
abbrev Rec := List (String × TypedValue)

/-- Property read on a raw record (`record[f]`, first binding wins; the
tokenizer never produces duplicate keys). -/
def getRaw (r : RawRec) (f : String) : Option String :=
  (r.find? (fun p => p.1 = f)).map (·.2)

/-- Property read on a typed record (`record[f]`; `none` is JS undefined). -/
def getField (r : Rec) (f : String) : Option TypedValue :=
  (r.find? (fun p => p.1 = f)).map (·.2)

/-- Property write on a raw record: overwrite in place if the key exists
(JS object assignment keeps the original insertion position), else append. -/
def setRaw (r : RawRec) (f v : String) : RawRec :=
  if r.any (fun p => p.1 = f) then
    r.map (fun p => if p.1 = f then (f, v) else p)
  else r ++ [(f, v)]

/-- JS truthiness of a value. -/
def jsTruthy : TypedValue → Bool
  | .vStr s => s ≠ ""
  | .vNum n => ¬(n = .fin 0 ∨ n = .nan)
  | .vBool b => b
  | .vNull => false
  | .vDate _ => true

/-- JS truthiness of a possibly-absent value (undefined is falsy). -/
def jsTruthyO : Option TypedValue → Bool
  | none => false
  | some v => jsTruthy v

/-- JS `a || b` on possibly-absent values. -/
def jsOr (a b : Option TypedValue) : Option TypedValue :=
  if jsTruthyO a then a else b

/-- JS `a || d` with a present default. -/
def jsOrD (a : Option TypedValue) (d : TypedValue) : TypedValue :=
  match a with
  | some v => if jsTruthy v then v else d
  | none => d

/-- JS strict equality (`===`) between two possibly-absent values.
Date-to-Date comparison is reference equality in JS; two separately
constructed Date objects are never identical, and the engine never compares
a Date field with itself, so it is modelled as false. -/
def jsStrictEq : Option TypedValue → Option TypedValue → Bool
  | none, none => true
  | some (.vStr a), some (.vStr b) => a = b
  | some (.vNum a), some (.vNum b) =>
      if a = .nan ∨ b = .nan then false else a = b
  | some (.vBool a), some (.vBool b) => a = b
  | some .vNull, some .vNull => true
  | _, _ => false

/-- JS `v === s` for a string literal s. -/
def jsEqStr (v : Option TypedValue) (s : String) : Bool :=
  match v with
  | some (.vStr t) => t = s
  | _ => false

/-- SameValueZero, the equality used by JS Set membership (NaN equals NaN;
objects by reference, hence false for Dates as in `jsStrictEq`). -/
def sameValueZero : Option TypedValue → Option TypedValue → Bool
  | none, none => true
  | some (.vStr a), some (.vStr b) => a = b
  | some (.vNum a), some (.vNum b) => a = b
  | some (.vBool a), some (.vBool b) => a = b
  | some .vNull, some .vNull => true
  | _, _ => false

/-! ## String primitives

The JS string operations the engine uses (`split` with a one-character
separator, `trim`, `startsWith`, `substring(3)`) are embedded at the
character-list level so that every model function is kernel-computable. -/

/-- Split a character list on a separator character (JS `split(sep)`:
the empty string yields one empty piece, a trailing separator a trailing
empty piece). -/
def splitOnChar (sep : Char) (cs : List Char) : List (List Char) :=
  match cs with
  | [] => [[]]
  | c :: rest =>
      let r := splitOnChar sep rest
      if c = sep then [] :: r
      else
        match r with
        | [] => [[c]]
        | h :: t => (c :: h) :: t

/-- JS `s.split(sep)` for a one-character separator. -/
def jsSplit (sep : Char) (s : String) : List String :=
  (splitOnChar sep s.toList).map String.mk

/-- JS `s.trim()`: strip leading and trailing whitespace. -/
def jsTrim (s : String) : String :=
  String.mk
    (((s.toList.dropWhile Char.isWhitespace).reverse.dropWhile
        Char.isWhitespace).reverse)

/-- JS `s.startsWith(p)`. -/
def jsStartsWith (s p : String) : Bool :=
  p.toList.isPrefixOf s.toList

/-- JS `s.substring(n)` for `n` within bounds. -/
def jsDropStr (n : ℕ) (s : String) : String :=
  String.mk (s.toList.drop n)

/-! ## JS string-to-number conversion (`Number(string)`) -/

/-- Numeric value of a list of decimal digit characters. -/
def digitsVal (ds : List Char) : ℕ :=
  ds.foldl (fun n c => 10 * n + (c.toNat - 48)) 0

/-- Numeric value of a list of hex digit characters. -/
def hexVal (ds : List Char) : ℕ :=
  ds.foldl (fun n c =>
    16 * n +
      (if c.isDigit then c.toNat - 48
       else if c ≥ 'a' then c.toNat - 87 else c.toNat - 55)) 0

/-- Hex digit test. -/
def isHexDigit (c : Char) : Bool :=
  c.isDigit ∨ ('a' ≤ c ∧ c ≤ 'f') ∨ ('A' ≤ c ∧ c ≤ 'F')

/-- Exponent suffix of a decimal numeric literal; `none` means the remaining
characters are not a valid (possibly empty) exponent part. -/
def parseExpPart : List Char → Option ℤ
  | [] => some 0
  | c :: rest =>
    if c = 'e' ∨ c = 'E' then
      match rest with
      | '+' :: ds =>
          if ds ≠ [] ∧ ds.all Char.isDigit then some (digitsVal ds) else none
      | '-' :: ds =>
          if ds ≠ [] ∧ ds.all Char.isDigit then some (-(digitsVal ds : ℤ)) else none
      | ds =>
          if ds ≠ [] ∧ ds.all Char.isDigit then some (digitsVal ds) else none
    else none

/-- Unsigned decimal literal (digits, optional fraction, optional exponent);
the whole character list must be consumed. -/
def parseDec (cs : List Char) : Option ℚ :=
  let ip := cs.takeWhile Char.isDigit
  let r1 := cs.dropWhile Char.isDigit
  match r1 with
  | '.' :: r2 =>
      let fp := r2.takeWhile Char.isDigit
      let r3 := r2.dropWhile Char.isDigit
      if ip.isEmpty ∧ fp.isEmpty then none
      else (parseExpPart r3).map (fun e =>
        ((digitsVal ip : ℚ) + (digitsVal fp : ℚ) / 10 ^ fp.length) * 10 ^ e)
  | _ =>
      if ip.isEmpty then none
      else (parseExpPart r1).map (fun e => (digitsVal ip : ℚ) * 10 ^ e)

/-- Signed decimal literal. -/
def parseSignedDec (cs : List Char) : JSNum :=
  let core : List Char → ℚ → JSNum := fun l sgn =>
    match parseDec l with
    | none => .nan
    | some q => .fin (sgn * q)
  match cs with
  | '+' :: r => core r 1
  | '-' :: r => core r (-1)
  | _ => core cs 1

/-- JS `Number(string)`: trimmed empty string is 0, the Infinity literals,
unsigned radix-prefixed integers, or a signed decimal literal; anything else
is NaN. -/
def strToNumber (s : String) : JSNum :=
  let t := jsTrim s
  if t = "" then .fin 0
  else if t = "Infinity" ∨ t = "+Infinity" then .posInf
  else if t = "-Infinity" then .negInf
  else
    match t.toList with
    | '0' :: x :: rest =>
        if x = 'x' ∨ x = 'X' then
          (if rest ≠ [] ∧ rest.all isHexDigit then .fin (hexVal rest) else .nan)
        else if x = 'o' ∨ x = 'O' then
          (if rest ≠ [] ∧ rest.all (fun c => '0' ≤ c ∧ c ≤ '7') then
            .fin (rest.foldl (fun n c => 8 * n + (c.toNat - 48)) (0 : ℕ)) else .nan)
        else if x = 'b' ∨ x = 'B' then
          (if rest ≠ [] ∧ rest.all (fun c => c = '0' ∨ c = '1') then
            .fin (rest.foldl (fun n c => 2 * n + (c.toNat - 48)) (0 : ℕ)) else .nan)
        else parseSignedDec t.toList
    | cs => parseSignedDec cs

/-! ## JS `parseFloat` -/

/-- Longest decimal-digit run at the front. -/
def floatDigits (cs : List Char) : List Char × List Char :=
  (cs.takeWhile Char.isDigit, cs.dropWhile Char.isDigit)

/-- `parseFloat` body after sign: longest valid decimal-literal value at the
front of the character list; NaN when no digit is found. An exponent marker
not followed by digits is simply not consumed. -/
def floatPfxVal (cs : List Char) : JSNum :=
  let (ip, r1) := floatDigits cs
  let (fp, r2) :=
    match r1 with
    | '.' :: r => floatDigits r
    | _ => ([], r1)
  if ip.isEmpty ∧ fp.isEmpty then .nan
  else
    let base : ℚ := (digitsVal ip : ℚ) + (digitsVal fp : ℚ) / 10 ^ fp.length
    let e : ℤ :=
      match r2 with
      | c :: r3 =>
          if c = 'e' ∨ c = 'E' then
            match r3 with
            | '+' :: ds =>
                (if (ds.takeWhile Char.isDigit) ≠ [] then
                  (digitsVal (ds.takeWhile Char.isDigit) : ℤ) else 0)
            | '-' :: ds =>
                (if (ds.takeWhile Char.isDigit) ≠ [] then
                  -(digitsVal (ds.takeWhile Char.isDigit) : ℤ) else 0)
            | ds =>
                (if (ds.takeWhile Char.isDigit) ≠ [] then
                  (digitsVal (ds.takeWhile Char.isDigit) : ℤ) else 0)
          else 0
      | [] => 0
    .fin (base * 10 ^ e)

/-- JS `parseFloat` on a string: skip leading whitespace, optional sign,
Infinity literal or longest decimal prefix. -/
def parseFloatStr (s : String) : JSNum :=
  let cs := s.toList.dropWhile Char.isWhitespace
  match cs with
  | '+' :: r =>
      if "Infinity".toList.isPrefixOf r then .posInf else floatPfxVal r
  | '-' :: r =>
      if "Infinity".toList.isPrefixOf r then .negInf else JSNum.neg (floatPfxVal r)
  | r =>
      if "Infinity".toList.isPrefixOf r then .posInf else floatPfxVal r

/-- JS `parseFloat(v)` on a possibly-absent typed value: the argument is
first converted to a string. Stringified booleans, null, undefined and Dates
(whose string form starts with a weekday name) all parse to NaN; a number
round-trips through its own decimal representation. -/
def parseFloatV : Option TypedValue → JSNum
  | none => .nan
  | some (.vStr s) => parseFloatStr s
  | some (.vNum n) => n
  | some (.vBool _) => .nan
  | some .vNull => .nan
  | some (.vDate _) => .nan

/-! ## Date parsing (`new Date(string)`) -/

/-- Days from the civil epoch 1970-01-01 for a proleptic Gregorian date
(standard days-from-civil computation). -/
def daysFromCivil (y : ℤ) (m d : ℕ) : ℤ :=
  let y' : ℤ := if m ≤ 2 then y - 1 else y
  let era : ℤ := (if 0 ≤ y' then y' else y' - 399) / 400
  let yoe : ℤ := y' - era * 400
  let mp : ℤ := ((m : ℤ) + 9) % 12
  let doy : ℤ := (153 * mp + 2) / 5 + (d : ℤ) - 1
  let doe : ℤ := yoe * 365 + yoe / 4 - yoe / 100 + doy
  era * 146097 + doe - 719468

/-- Number of days in a month of a given year. -/
def daysInMonth (y : ℤ) (m : ℕ) : ℕ :=
  if m = 2 then
    (if y % 4 = 0 ∧ (y % 100 ≠ 0 ∨ y % 400 = 0) then 29 else 28)
  else if m = 4 ∨ m = 6 ∨ m = 9 ∨ m = 11 then 30
  else 31

/-- Two leading decimal digits. -/
def twoDigits : List Char → Option (ℕ × List Char)
  | a :: b :: rest =>
      if a.isDigit ∧ b.isDigit then some (digitsVal [a, b], rest) else none
  | _ => none

/-- Date-string parser for the date-time shapes that occur in XER exports,
`YYYY-MM-DD` optionally followed by a space or `T` and `HH:MM` or
`HH:MM:SS`; the result is the millisecond time value (host offset modelled
as UTC). Anything else yields `none` (an Invalid Date). -/
def parseDateString (s : String) : Option ℚ :=
  match s.toList with
  | y1 :: y2 :: y3 :: y4 :: '-' :: rest =>
    if (y1.isDigit ∧ y2.isDigit ∧ y3.isDigit ∧ y4.isDigit) then
      let y : ℤ := digitsVal [y1, y2, y3, y4]
      match twoDigits rest with
      | some (mo, '-' :: rest2) =>
        match twoDigits rest2 with
        | some (d, rest3) =>
          if 1 ≤ mo ∧ mo ≤ 12 ∧ 1 ≤ d ∧ d ≤ daysInMonth y mo then
            let dayMs : ℚ := (daysFromCivil y mo d : ℚ) * 86400000
            match rest3 with
            | [] => some dayMs
            | sep :: rest4 =>
              if sep = ' ' ∨ sep = 'T' then
                match twoDigits rest4 with
                | some (h, ':' :: rest5) =>
                  match twoDigits rest5 with
                  | some (mi, rest6) =>
                    if h ≤ 23 ∧ mi ≤ 59 then
                      let hm : ℚ := dayMs + h * 3600000 + mi * 60000
                      match rest6 with
                      | [] => some hm
                      | ':' :: rest7 =>
                        match twoDigits rest7 with
                        | some (sec, []) =>
                            if sec ≤ 59 then some (hm + sec * 1000) else none
                        | _ => none
                      | _ => none
                    else none
                  | _ => none
                | _ => none
              else none
          else none
        | _ => none
      | _ => none
    else none
  | _ => none

/-- `new Date(x).getTime()` for a possibly-absent typed value: NaN marks an
Invalid Date. Numbers are clipped and truncated per TimeClip; null converts
to 0 (the epoch); booleans to 0 or 1. -/
def toDateNum : Option TypedValue → JSNum
  | none => .nan
  | some (.vDate ms) => .fin ms
  | some .vNull => .fin 0
  | some (.vBool b) => .fin (if b then 1 else 0)
  | some (.vNum n) =>
      match n with
      | .fin q =>
          if |q| > 8640000000000000 then .nan
          else .fin (if 0 ≤ q then (⌊q⌋ : ℚ) else (⌈q⌉ : ℚ))
      | _ => .nan
  | some (.vStr s) =>
      match parseDateString s with
      | some ms => .fin ms
      | none => .nan

/-! ## Tokenizer / record builder (`XERParser.parseContent`) -/

/-- Replace or create the raw-record list bound to a table name, mirroring
`data[t] = []` on a JS object (existing key keeps its position). -/
def setTable (d : List (String × List RawRec)) (t : String)
    (v : List RawRec) : List (String × List RawRec) :=
  if d.any (fun p => p.1 = t) then
    d.map (fun p => if p.1 = t then (t, v) else p)
  else d ++ [(t, v)]

/-- Append one record to the list bound to a table name
(`data[t].push(record)`; the key always exists when this is reached). -/
def pushRecord (d : List (String × List RawRec)) (t : String)
    (r : RawRec) : List (String × List RawRec) :=
  if d.any (fun p => p.1 = t) then
    d.map (fun p => if p.1 = t then (t, p.2 ++ [r]) else p)
  else d ++ [(t, [r])]

/-- Zip positional values with the active field list into one raw record,
stopping at the shorter list, exactly as the indexed loop in the source
does. (`values[i] || ''` is the identity on the strings that reach it:
a nonempty string is returned as is and the empty string becomes the empty
string.) -/
def buildRecord (fields values : List String) : RawRec :=
  (fields.zip values).foldl (fun rec p => setRaw rec p.1 p.2) []

/-- Tokenizer state: the table map, the active table, the active field
list. -/
structure PState where
  data : List (String × List RawRec)
  currentTable : Option String
  currentFields : List String
deriving DecidableEq, Repr

/-- One trimmed, nonempty line of input. A table marker starts a new table
and resets the field list; a field marker replaces the field list; a data
row is zipped with the field list when a table is active and the field list
is nonempty; every other line is ignored. -/
def parseStep (st : PState) (line : String) : PState :=
  if jsStartsWith line "%T\t" then
    let t := jsDropStr 3 line
    { data := setTable st.data t [], currentTable := some t, currentFields := [] }
  else if jsStartsWith line "%F\t" then
    { st with currentFields := jsSplit '\t' (jsDropStr 3 line) }
  else if jsStartsWith line "%R\t" then
    match st.currentTable with
    | some t =>
        if st.currentFields.length > 0 then
          { st with
            data := pushRecord st.data t
              (buildRecord st.currentFields (jsSplit '\t' (jsDropStr 3 line))) }
        else st
    | none => st
  else st

/-- `XERParser.parseContent`: split on newlines, trim, drop empty lines,
fold the line handler over the rest. -/
def parseContent (content : String) : List (String × List RawRec) :=
  let lines := ((jsSplit '\n' content).map jsTrim).filter (· ≠ "")
  (lines.foldl parseStep ⟨[], none, []⟩).data

/-! ## Schema-typed projector (`XERParser.convertTypes`) -/

inductive FieldType where
  | tString : FieldType
  | tNumber : FieldType
  | tDate : FieldType
  | tBoolean : FieldType
deriving DecidableEq, Repr

/-- A table schema: field name to declared type. -/
abbrev Schema := List (String × FieldType)

/-- Schema lookup. -/
def schemaLookup (sc : Schema) (f : String) : Option FieldType :=
  (sc.find? (fun p => p.1 = f)).map (·.2)

/-- `convertToNumber` on a raw string: null-or-empty guard first, then
`Number(value)` with NaN collapsed to 0. -/
def convertToNumberS (s : String) : JSNum :=
  if s = "" then .fin 0
  else match strToNumber s with
    | .nan => .fin 0
    | n => n

/-- `convertToNumber` on an arbitrary (possibly absent) typed value, as the
Reader applies it to already-converted fields: null, undefined and the empty
string give 0; a number passes through unless NaN; a boolean converts to 0
or 1; a valid Date to its time value. -/
def convertToNumberV : Option TypedValue → JSNum
  | none => .fin 0
  | some .vNull => .fin 0
  | some (.vStr s) => convertToNumberS s
  | some (.vNum n) => if n = .nan then .fin 0 else n
  | some (.vBool b) => .fin (if b then 1 else 0)
  | some (.vDate ms) => .fin ms

/-- `convertToDate` on a raw string: falsy guard, then `new Date(value)`
with an Invalid Date collapsed to null. -/
def convertToDate (s : String) : TypedValue :=
  if s = "" then .vNull
  else match parseDateString s with
    | some ms => .vDate ms
    | none => .vNull

/-- One field conversion per declared type. -/
def applyFieldType : FieldType → String → TypedValue
  | .tNumber, v => .vNum (convertToNumberS v)
  | .tDate, v => convertToDate v
  | .tBoolean, v => .vBool (v = "Y" ∨ v = "true" ∨ v = "1")
  | .tString, v => .vStr v

/-- `XERParser.convertTypes`: every field present in the record is converted
per its schema entry; fields absent from the schema pass through as raw
strings. (The source spreads the record and then overwrites converted
fields in place, which on the duplicate-free records the tokenizer emits is
this per-entry map.) -/
def convertTypes (record : RawRec) (sc : Schema) : Rec :=
  record.map (fun p =>
    (p.1,
      match schemaLookup sc p.1 with
      | none => .vStr p.2
      | some t => applyFieldType t p.2))

/-- The TASK schema (the subset of `SCHEMAS` the claims exercise). -/
def schemaTASK : Schema :=
  [("task_id", .tString), ("proj_id", .tString), ("wbs_id", .tString),
   ("task_code", .tString), ("task_name", .tString), ("status_code", .tString),
   ("phys_complete_pct", .tNumber), ("target_drtn_hr_cnt", .tNumber),
   ("total_float_hr_cnt", .tNumber), ("driving_path_flag", .tString),
   ("act_start_date", .tDate), ("act_end_date", .tDate),
   ("early_start_date", .tDate), ("early_end_date", .tDate),
   ("late_start_date", .tDate), ("late_end_date", .tDate)]

/-- The TASKRSRC schema. -/
def schemaTASKRSRC : Schema :=
  [("taskrsrc_id", .tString), ("task_id", .tString), ("rsrc_id", .tString),
   ("proj_id", .tString), ("target_qty", .tNumber), ("target_cost", .tNumber),
   ("act_reg_qty", .tNumber), ("act_ot_qty", .tNumber),
   ("act_reg_cost", .tNumber), ("act_ot_cost", .tNumber),
   ("remain_qty", .tNumber), ("remain_cost", .tNumber)]

/-- The TASKPRED schema. -/
def schemaTASKPRED : Schema :=
  [("task_pred_id", .tString), ("task_id", .tString),
   ("pred_task_id", .tString), ("pred_type", .tString),
   ("lag_hr_cnt", .tNumber)]

/-! ## Reader model and analytics -/

/-- The Reader collections (typed records). -/
structure Reader where
  projects : List Rec := []
  activities : List Rec := []
  wbs : List Rec := []
  resources : List Rec := []
  relationships : List Rec := []
  activityResources : List Rec := []
deriving Repr

/-- `Reader.getCriticalActivities`. -/
def getCriticalActivities (activities : List Rec) : List Rec :=
  activities.filter (fun a =>
    convertToNumberV (getField a "total_float_hr_cnt") = JSNum.fin 0 ∨
    jsEqStr (getField a "driving_path_flag") "Y")

/-- `Reader.getResourceAssignmentsByResource`. -/
def getResourceAssignmentsByResource (rd : Reader) (rid : String) : List Rec :=
  rd.activityResources.filter (fun ar => jsEqStr (getField ar "rsrc_id") rid)

/-- The duration-statistics block of `getSummaryStats`. -/
structure DurationStats where
  total : JSNum
  average : JSNum
  min : JSNum
  max : JSNum
deriving DecidableEq, Repr

/-- `Reader.getSummaryStats` (the status and resource-type histograms,
which are keyed through JS string coercion and referenced by no claim, are
omitted). `durationStats` is set only when at least one activity has a
strictly positive converted duration. -/
structure SummaryStats where
  totalProjects : ℕ
  totalActivities : ℕ
  totalResources : ℕ
  totalRelationships : ℕ
  totalResourceAssignments : ℕ
  durationStats : Option DurationStats
deriving Repr

def getSummaryStats (rd : Reader) : SummaryStats :=
  let durations :=
    (rd.activities.map (fun a =>
      convertToNumberV (getField a "target_drtn_hr_cnt"))).filter
      (fun d => JSNum.ltB (.fin 0) d)
  { totalProjects := rd.projects.length
    totalActivities := rd.activities.length
    totalResources := rd.resources.length
    totalRelationships := rd.relationships.length
    totalResourceAssignments := rd.activityResources.length
    durationStats :=
      if durations.length > 0 then
        some
          { total := durations.foldl JSNum.add (.fin 0)
            average :=
              JSNum.div (durations.foldl JSNum.add (.fin 0))
                (.fin durations.length)
            min := durations.foldl JSNum.min2 .posInf
            max := durations.foldl JSNum.max2 .negInf }
      else none }

/-! ## Resource curve (`Reader.getResourceCurve`) -/

/-- One entry of the `activityData` array built at the top of
`getResourceCurve`: the paired activity dates (as time values) and the
converted assignment quantities and costs, plus the carried display
fields. -/
structure ActData where
  activityId : Option TypedValue
  activityName : Option TypedValue
  taskCode : Option TypedValue
  startDate : JSNum
  endDate : JSNum
  targetQty : JSNum
  actualQty : JSNum
  targetCost : JSNum
  actualCost : JSNum
  remainingQty : JSNum
  remainingCost : JSNum
  activityStatus : Option TypedValue
  activityCompletion : JSNum
  duration : JSNum
deriving DecidableEq, Repr

/-- 7 days in milliseconds. -/
def weekInMs : ℚ := 604800000

/-- The assignment-to-activity pairing loop: keep an assignment when its
activity is found and `actual start or early start` and `actual end or
early end` are both truthy. -/
def buildActivityData (rd : Reader) (rid : String) : List ActData :=
  (getResourceAssignmentsByResource rd rid).filterMap (fun ar =>
    match rd.activities.find? (fun a =>
        jsStrictEq (getField a "task_id") (getField ar "task_id")) with
    | none => none
    | some a =>
        let sd := jsOr (getField a "act_start_date") (getField a "early_start_date")
        let ed := jsOr (getField a "act_end_date") (getField a "early_end_date")
        if jsTruthyO sd ∧ jsTruthyO ed then
          some
            { activityId := getField a "task_id"
              activityName := getField a "task_name"
              taskCode := getField a "task_code"
              startDate := toDateNum sd
              endDate := toDateNum ed
              targetQty := convertToNumberV (getField ar "target_qty")
              actualQty :=
                JSNum.add (convertToNumberV (getField ar "act_reg_qty"))
                  (convertToNumberV (getField ar "act_ot_qty"))
              targetCost := convertToNumberV (getField ar "target_cost")
              actualCost :=
                JSNum.add (convertToNumberV (getField ar "act_reg_cost"))
                  (convertToNumberV (getField ar "act_ot_cost"))
              remainingQty := convertToNumberV (getField ar "remain_qty")
              remainingCost := convertToNumberV (getField ar "remain_cost")
              activityStatus := getField a "status_code"
              activityCompletion :=
                convertToNumberV (getField a "phys_complete_pct")
              duration := convertToNumberV (getField a "target_drtn_hr_cnt") }
        else none)

/-- Is the activity active during the bucket starting at `ws`
(`startDate <= weekEnd && endDate >= weekStart`)? -/
def activeIn (a : ActData) (ws : ℚ) : Bool :=
  JSNum.leB a.startDate (.fin (qAdd ws weekInMs)) ∧
  JSNum.leB (.fin ws) a.endDate

/-- The overlap ratio of an activity with the bucket starting at `ws`:
clamped overlap duration over total span, 0 for a non-positive span. -/
def overlapRatio (a : ActData) (ws : ℚ) : JSNum :=
  let os := JSNum.max2 a.startDate (.fin ws)
  let oe := JSNum.min2 a.endDate (.fin (qAdd ws weekInMs))
  let od := JSNum.max2 (.fin 0) (JSNum.sub oe os)
  let d := JSNum.sub a.endDate a.startDate
  if JSNum.ltB (.fin 0) d then JSNum.div od d else .fin 0

/-- One weekly accumulator: sum `sel a * overlapRatio a` over the active
activities. (The source accumulates the four weekly sums in a single pass;
per accumulator the additions happen in the same order as this fold.) -/
def weeklySum (l : List ActData) (ws : ℚ) (sel : ActData → JSNum) : JSNum :=
  l.foldl (fun acc a =>
    if activeIn a ws then JSNum.add acc (JSNum.mul (sel a) (overlapRatio a ws))
    else acc) (.fin 0)

/-- One element of `timeBasedData` (the `activeActivities` drill-down list
is referenced by no claim and is omitted). -/
structure TimePoint where
  date : ℚ
  weekEnd : ℚ
  weeklyTargetQty : JSNum
  weeklyActualQty : JSNum
  weeklyTargetCost : JSNum
  weeklyActualCost : JSNum
deriving DecidableEq, Repr

/-- The bucket starting at `ws`. -/
def bucketAt (l : List ActData) (ws : ℚ) : TimePoint :=
  { date := ws
    weekEnd := qAdd ws weekInMs
    weeklyTargetQty := weeklySum l ws (·.targetQty)
    weeklyActualQty := weeklySum l ws (·.actualQty)
    weeklyTargetCost := weeklySum l ws (·.targetCost)
    weeklyActualCost := weeklySum l ws (·.actualCost) }

/-- Number of iterations of `while (currentDate <= projectEndDate)` stepping
by one week: for a finite window one bucket per 7-day step, inclusive of the
window end. A window bound that is not finite makes `new Date` produce an
Invalid Date whose NaN comparison stops the loop before the first
iteration. -/
def numBuckets (s e : JSNum) : ℕ :=
  match s, e with
  | .fin sq, .fin eq' =>
      if sq ≤ eq' then (qFloor (qDiv (qSub eq' sq) weekInMs)).toNat + 1 else 0
  | _, _ => 0

/-- The chronological bucket list over the window. -/
def curveBuckets (l : List ActData) (s e : JSNum) : List TimePoint :=
  match s with
  | .fin sq =>
      (List.range (numBuckets s e)).map (fun (k : ℕ) =>
        bucketAt l (qAdd sq (qMul (k : ℚ) weekInMs)))
  | _ => []

/-- The curve result (`resource` and the compatibility `dataPoints` list are
display-only and referenced by no claim). -/
structure Curve where
  resourceId : String
  timeBasedData : List TimePoint
deriving Repr

/-- `Reader.getResourceCurve`: pair assignments with activity spans, sort by
start date, derive the window as [min start, max end] and fill the weekly
buckets. -/
def getResourceCurve (rd : Reader) (rid : String) : Curve :=
  let ad := buildActivityData rd rid
  if ad.isEmpty then { resourceId := rid, timeBasedData := [] }
  else
    let sorted := ad.mergeSort (fun a b => JSNum.leB a.startDate b.startDate)
    let ws := (sorted.map (·.startDate)).foldl JSNum.min2 .posInf
    let we := (sorted.map (·.endDate)).foldl JSNum.max2 .negInf
    { resourceId := rid, timeBasedData := curveBuckets sorted ws we }

/-! ## DCMA 14-point integrity checker (`IntegrityChecker`) -/

inductive Status where
  | pass : Status
  | warning : Status
  | fail : Status
deriving DecidableEq, Repr

/-- One check result (the description, metric map, drill-down lists and
message are display strings referenced by no claim and are omitted). -/
structure CheckResult where
  number : ℕ
  title : String
  status : Status
deriving DecidableEq, Repr

/-- Membership in a JS Set built from the given values (SameValueZero). -/
def inSet (vals : List (Option TypedValue)) (x : Option TypedValue) : Bool :=
  vals.any (fun v => sameValueZero v x)

/-- Check 1, Logic: no dangling activities and at least one start and one
finish milestone. -/
def checkLogic (activities relationships : List Rec) : CheckResult :=
  let predIds := relationships.map (fun r => getField r "task_id")
  let succIds := relationships.map (fun r => getField r "pred_task_id")
  let isMilestoneDur := fun (a : Rec) =>
    jsStrictEq (getField a "target_drtn_hr_cnt") (some (.vNum (.fin 0))) ∨
    ¬jsTruthyO (getField a "target_drtn_hr_cnt")
  let startMilestones := activities.filter (fun a =>
    ¬inSet predIds (getField a "task_id") ∧ isMilestoneDur a)
  let finishMilestones := activities.filter (fun a =>
    ¬inSet succIds (getField a "task_id") ∧ isMilestoneDur a)
  let dangling := activities.filter (fun a =>
    ¬inSet predIds (getField a "task_id") ∧ ¬inSet succIds (getField a "task_id"))
  { number := 1, title := "Logic"
    status :=
      if dangling.length = 0 ∧ startMilestones.length ≥ 1 ∧
          finishMilestones.length ≥ 1 then .pass else .fail }

/-- Check 2, Leads: relationships with truthy, negative lag. -/
def checkLeads (relationships : List Rec) : CheckResult :=
  let leads := relationships.filter (fun r =>
    jsTruthyO (getField r "lag_hr_cnt") ∧
    JSNum.ltB (parseFloatV (getField r "lag_hr_cnt")) (.fin 0))
  { number := 2, title := "Leads"
    status :=
      if leads.length = 0 then .pass
      else if (leads.length : ℚ) ≤ qMul (relationships.length : ℚ) (qDiv 5 100) then
        .warning
      else .fail }

/-- Check 3, Lags: relationships with truthy, positive lag. -/
def checkLags (relationships : List Rec) : CheckResult :=
  let lags := relationships.filter (fun r =>
    jsTruthyO (getField r "lag_hr_cnt") ∧
    JSNum.ltB (.fin 0) (parseFloatV (getField r "lag_hr_cnt")))
  { number := 3, title := "Lags"
    status :=
      if (lags.length : ℚ) ≤ qMul (relationships.length : ℚ) (qDiv 10 100) then .pass
      else .warning }

/-- Check 4, Relationship types: share of (defaulted) Finish-to-Start. -/
def checkRelationshipTypes (relationships : List Rec) : CheckResult :=
  let fs := relationships.filter (fun r =>
    ¬jsTruthyO (getField r "pred_type") ∨ jsEqStr (getField r "pred_type") "PR_FS")
  let percentage : ℚ :=
    if relationships.length > 0 then
      qMul (qDiv (fs.length : ℚ) (relationships.length : ℚ)) 100
    else 100
  { number := 4, title := "Relationship Types"
    status :=
      if percentage ≥ 90 then .pass
      else if percentage ≥ 80 then .warning else .fail }

/-- Check 5, Hard constraints. -/
def checkHardConstraints (activities : List Rec) : CheckResult :=
  let constrained := activities.filter (fun a =>
    jsTruthyO (getField a "cstr_type") ∧
    ¬jsEqStr (getField a "cstr_type") "CS_ALAP" ∧
    ¬jsEqStr (getField a "cstr_type") "CS_ASAP")
  { number := 5, title := "Hard Constraints"
    status :=
      if constrained.length = 0 then .pass
      else if (constrained.length : ℚ) ≤ qMul (activities.length : ℚ) (qDiv 5 100) then
        .warning
      else .fail }

/-- Check 6, High float: converted float above 168 hours. -/
def checkHighFloat (activities : List Rec) : CheckResult :=
  let high := activities.filter (fun a =>
    JSNum.ltB (.fin 168)
      (parseFloatV (some (jsOrD (getField a "total_float_hr_cnt") (.vNum (.fin 0))))))
  let percentage : ℚ :=
    if activities.length > 0 then
      qMul (qDiv (high.length : ℚ) (activities.length : ℚ)) 100
    else 0
  { number := 6, title := "High Float"
    status :=
      if percentage ≤ 5 then .pass
      else if percentage ≤ 10 then .warning else .fail }

/-- Check 7, Negative float. -/
def checkNegativeFloat (activities : List Rec) : CheckResult :=
  let neg := activities.filter (fun a =>
    JSNum.ltB
      (parseFloatV (some (jsOrD (getField a "total_float_hr_cnt") (.vNum (.fin 0)))))
      (.fin 0))
  { number := 7, title := "Negative Float"
    status := if neg.length = 0 then .pass else .fail }

/-- Check 8, High duration: above 960 hours. -/
def checkHighDuration (activities : List Rec) : CheckResult :=
  let high := activities.filter (fun a =>
    JSNum.ltB (.fin 960)
      (parseFloatV (some (jsOrD (getField a "target_drtn_hr_cnt") (.vNum (.fin 0))))))
  let percentage : ℚ :=
    if activities.length > 0 then
      qMul (qDiv (high.length : ℚ) (activities.length : ℚ)) 100
    else 0
  { number := 8, title := "High Duration"
    status :=
      if percentage ≤ 5 then .pass
      else if percentage ≤ 10 then .warning else .fail }

/-- Check 9, Invalid dates: a start or end missing, or start after end. -/
def checkInvalidDates (activities : List Rec) : CheckResult :=
  let invalid := activities.filter (fun a =>
    let sd := jsOr (getField a "act_start_date") (getField a "early_start_date")
    let ed := jsOr (getField a "act_end_date") (getField a "early_end_date")
    ¬jsTruthyO sd ∨ ¬jsTruthyO ed ∨ JSNum.ltB (toDateNum ed) (toDateNum sd))
  { number := 9, title := "Invalid Dates"
    status := if invalid.length = 0 then .pass else .fail }

/-- Check 10, Resources: share of positive-duration activities holding at
least one assignment. -/
def checkResources (activities assignments : List Rec) : CheckResult :=
  let withRes := assignments.map (fun ar => getField ar "task_id")
  let work := activities.filter (fun a =>
    JSNum.ltB (.fin 0)
      (parseFloatV (some (jsOrD (getField a "target_drtn_hr_cnt") (.vNum (.fin 0))))))
  let resourced := work.filter (fun a => inSet withRes (getField a "task_id"))
  let percentage : ℚ :=
    if work.length > 0 then
      qMul (qDiv (resourced.length : ℚ) (work.length : ℚ)) 100
    else 100
  { number := 10, title := "Resources"
    status :=
      if percentage ≥ 95 then .pass
      else if percentage ≥ 80 then .warning else .fail }

/-- Check 11, Incomplete activities: active activities at exactly 0%. -/
def checkIncompleteActivities (activities : List Rec) : CheckResult :=
  let incomplete := activities.filter (fun a =>
    jsEqStr (getField a "status_code") "TK_Active" ∧
    parseFloatV (some (jsOrD (getField a "phys_complete_pct") (.vNum (.fin 0)))) =
      JSNum.fin 0)
  let active := activities.filter (fun a =>
    jsEqStr (getField a "status_code") "TK_Active")
  let percentage : ℚ :=
    if active.length > 0 then
      qMul (qDiv (incomplete.length : ℚ) (active.length : ℚ)) 100
    else 0
  { number := 11, title := "Incomplete Activities"
    status :=
      if percentage ≤ 5 then .pass
      else if percentage ≤ 10 then .warning else .fail }

/-- Check 12, Critical path ratio. -/
def checkCriticalPath (activities : List Rec) : CheckResult :=
  let critical := activities.filter (fun a =>
    parseFloatV (some (jsOrD (getField a "total_float_hr_cnt") (.vNum (.fin 0)))) =
      JSNum.fin 0 ∨
    jsEqStr (getField a "driving_path_flag") "Y")
  let percentage : ℚ :=
    if activities.length > 0 then
      qMul (qDiv (critical.length : ℚ) (activities.length : ℚ)) 100
    else 0
  { number := 12, title := "Critical Path Test"
    status := if 5 ≤ percentage ∧ percentage ≤ 15 then .pass else .warning }

/-- Check 13, always pass. -/
def checkCD1 : CheckResult :=
  { number := 13, title := "CD-1 Baseline", status := .pass }

/-- Check 14, always pass. -/
def checkCD234 : CheckResult :=
  { number := 14, title := "CD-2/3/4 Requirements", status := .pass }

/-- The assessment summary. -/
structure AssessSummary where
  totalPoints : ℕ
  passedPoints : ℕ
  failedPoints : ℕ
  warningPoints : ℕ
  score : ℚ
  grade : String
deriving DecidableEq, Repr

/-- The full assessment result. -/
structure AssessResult where
  points : List CheckResult
  summary : AssessSummary
deriving Repr

/-- `IntegrityChecker.runDCMA14Assessment`: run the fixed battery of 14
checks, count statuses, score as the rounded pass percentage and grade by
fixed thresholds. -/
def runDCMA14 (activities relationships assignments : List Rec) :
    AssessResult :=
  let points : List CheckResult :=
    [checkLogic activities relationships,
     checkLeads relationships,
     checkLags relationships,
     checkRelationshipTypes relationships,
     checkHardConstraints activities,
     checkHighFloat activities,
     checkNegativeFloat activities,
     checkHighDuration activities,
     checkInvalidDates activities,
     checkResources activities assignments,
     checkIncompleteActivities activities,
     checkCriticalPath activities,
     checkCD1,
     checkCD234]
  let passed := (points.filter (fun p => p.status = .pass)).length
  let failed := (points.filter (fun p => p.status = .fail)).length
  let warned := (points.filter (fun p => p.status = .warning)).length
  let score : ℚ := jsRound (qMul (qDiv (passed : ℚ) 14) 100)
  { points := points
    summary :=
      { totalPoints := 14
        passedPoints := passed
        failedPoints := failed
        warningPoints := warned
        score := score
        grade :=
          if score ≥ 90 then "A"
          else if score ≥ 80 then "B"
          else if score ≥ 70 then "C"
          else if score ≥ 60 then "D"
          else "F" } }

/-! ## Specification helpers (not part of the source model) -/

/-- The rational carried by a finite JS number (0 otherwise); proof-side
accessor only. -/
def finVal : JSNum → ℚ
  | .fin q => q
  | _ => 0

/-- The exact-arithmetic quantity a single activity contributes to the
bucket starting at `ws`: target quantity times clamped overlap over span. -/
def qContrib (a : ActData) (ws : ℚ) : ℚ :=
  finVal a.targetQty *
      max 0 (min (finVal a.endDate) (ws + weekInMs) - max (finVal a.startDate) ws) /
    (finVal a.endDate - finVal a.startDate)

/-- An activity-data entry with finite start, end and target quantity and a
strictly positive span (proof-side predicate). -/
def finActData (a : ActData) : Prop :=
  (∃ s, a.startDate = JSNum.fin s) ∧ (∃ e, a.endDate = JSNum.fin e) ∧
    (∃ q, a.targetQty = JSNum.fin q) ∧
    finVal a.startDate < finVal a.endDate

/-- Concrete records used to exercise the theorems below. -/
def negFloatActivity : Rec :=
  [("total_float_hr_cnt", TypedValue.vNum (.fin (-5))),
   ("driving_path_flag", TypedValue.vStr "N")]

def noFloatActivity : Rec := [("task_id", TypedValue.vStr "X")]

/-- A single 14-day activity (two exact weeks) for the resource-curve
example. -/
def c5Activity : Rec :=
  [("task_id", TypedValue.vStr "A1"),
   ("act_start_date", TypedValue.vDate 0),
   ("act_end_date", TypedValue.vDate 1209600000)]

/-- The single assignment of resource `R1` to that activity, with target
quantity 70. -/
def c5Assignment : Rec :=
  [("task_id", TypedValue.vStr "A1"), ("rsrc_id", TypedValue.vStr "R1"),
   ("target_qty", TypedValue.vNum (.fin 70))]

def c5Reader : Reader :=
  { activities := [c5Activity], activityResources := [c5Assignment] }

/-- The `activityData` entry the model builds for the sample above. -/
def c5ActData : ActData :=
  { activityId := some (TypedValue.vStr "A1")
    activityName := none
    taskCode := none
    startDate := .fin 0
    endDate := .fin 1209600000
    targetQty := .fin 70
    actualQty := .fin 0
    targetCost := .fin 0
    actualCost := .fin 0
    remainingQty := .fin 0
    remainingCost := .fin 0
    activityStatus := none
    activityCompletion := .fin 0
    duration := .fin 0 }

/-- A 20-activity model on which every one of the 14 integrity checks
passes: a single chain of Finish-to-Start relationships, a start and a
finish milestone, valid dates everywhere, floats clear of every threshold
with exactly 2 of 20 activities critical, and all 18 work activities
resourced. -/
def c2MidIds : List String :=
  ["B01", "B02", "B03", "B04", "B05", "B06", "B07", "B08", "B09",
   "B10", "B11", "B12", "B13", "B14", "B15", "B16", "B17"]

def mkC2Act (id : String) (flt : ℚ) (dur : Option ℚ) : Rec :=
  [("task_id", TypedValue.vStr id),
   ("status_code", TypedValue.vStr "TK_NotStart"),
   ("act_start_date", TypedValue.vDate 0),
   ("act_end_date", TypedValue.vDate 86400000),
   ("total_float_hr_cnt", TypedValue.vNum (.fin flt))] ++
  (match dur with
   | some d => [("target_drtn_hr_cnt", TypedValue.vNum (.fin d))]
   | none => [])

def c2Acts : List Rec :=
  [mkC2Act "A01" 100 none] ++
    c2MidIds.map (fun i => mkC2Act i 100 (some 8)) ++
    [mkC2Act "A19" 0 (some 8), mkC2Act "A20" 0 (some 0)]

def c2AllIds : List String := ["A01"] ++ c2MidIds ++ ["A19", "A20"]

def c2Rels : List Rec :=
  (c2AllIds.zip c2AllIds.tail).map (fun p =>
    [("task_id", TypedValue.vStr p.2), ("pred_task_id", TypedValue.vStr p.1),
     ("pred_type", TypedValue.vStr "PR_FS")])

def c2Assigns : List Rec :=
  (c2MidIds ++ ["A19"]).map (fun tid => [("task_id", TypedValue.vStr tid)])

/-! ## Helper lemmas -/

theorem qAdd_eq (a b : ℚ) : qAdd a b = a + b := by
  rw [Rat.add_def]
  unfold qAdd mkRat
  simp [Nat.mul_ne_zero a.den_nz b.den_nz]

theorem qNeg_eq (a : ℚ) : qNeg a = -a := by
  unfold qNeg
  rw [Rat.mkRat_eq_divInt, ← Rat.neg_divInt, Rat.num_divInt_den]

theorem qSub_eq (a b : ℚ) : qSub a b = a - b := by
  unfold qSub
  rw [qAdd_eq, qNeg_eq, sub_eq_add_neg]

theorem qMul_eq (a b : ℚ) : qMul a b = a * b := by
  rw [Rat.mul_def]
  unfold qMul mkRat
  simp [Nat.mul_ne_zero a.den_nz b.den_nz]

theorem qDiv_eq (a b : ℚ) : qDiv a b = a / b := by
  unfold qDiv
  rw [Rat.mkRat_eq_divInt]
  conv_rhs => rw [← Rat.num_divInt_den a, ← Rat.num_divInt_den b,
    Rat.divInt_div_divInt]
  split_ifs with hb
  · have habs : ((b.num.natAbs : ℕ) : ℤ) = -b.num :=
      Int.ofNat_natAbs_of_nonpos (le_of_lt hb)
    push_cast [habs]
    rw [show a.num * -(b.den : ℤ) = -(a.num * b.den) by ring,
      show (a.den : ℤ) * -b.num = -((a.den : ℤ) * b.num) by ring]
    rw [← Rat.neg_divInt, Rat.divInt_neg, Rat.neg_divInt, neg_neg]
  · have habs : ((b.num.natAbs : ℕ) : ℤ) = b.num :=
      Int.natAbs_of_nonneg (not_lt.mp hb)
    push_cast [habs]
    rfl

theorem qFloor_eq (a : ℚ) : qFloor a = ⌊a⌋ := by
  rw [Rat.floor_def]
  exact Int.fdiv_eq_ediv a.num (by positivity)

theorem getRaw_eq_none_iff (r : RawRec) (f : String) :
    getRaw r f = none ↔ f ∉ r.map Prod.fst := by
  simp only [getRaw, Option.map_eq_none', List.find?_eq_none,
    decide_eq_true_eq]
  constructor
  · intro h hmem
    rcases List.mem_map.mp hmem with ⟨p, hp, rfl⟩
    exact h p hp rfl
  · intro h p hp hpf
    exact h (List.mem_map.mpr ⟨p, hp, hpf⟩)

theorem keys_map_overwrite (r : RawRec) (g v : String) :
    (r.map (fun p => if p.1 = g then (g, v) else p)).map Prod.fst =
      r.map Prod.fst := by
  induction r with
  | nil => rfl
  | cons p r ih =>
      simp only [List.map_cons, List.cons.injEq]
      refine ⟨?_, ih⟩
      split_ifs with hp
      · exact hp.symm
      · rfl

theorem mem_keys_setRaw (r : RawRec) (g v f : String) :
    f ∈ (setRaw r g v).map Prod.fst ↔ f ∈ r.map Prod.fst ∨ f = g := by
  unfold setRaw
  split_ifs with h
  · rw [keys_map_overwrite]
    constructor
    · exact Or.inl
    · rintro (hf | rfl)
      · exact hf
      · rcases List.any_eq_true.mp h with ⟨p, hp, hpeq⟩
        exact List.mem_map.mpr ⟨p, hp, of_decide_eq_true hpeq⟩
  · simp

theorem mem_keys_buildFold (ps : List (String × String)) (init : RawRec)
    (f : String) :
    f ∈ ((ps.foldl (fun rec p => setRaw rec p.1 p.2) init).map Prod.fst) ↔
      f ∈ init.map Prod.fst ∨ f ∈ ps.map Prod.fst := by
  induction ps generalizing init with
  | nil => simp
  | cons p ps ih =>
      simp only [List.foldl_cons, ih, mem_keys_setRaw, List.map_cons,
        List.mem_cons]
      tauto

theorem map_fst_zip_eq_take (fields values : List String) :
    (fields.zip values).map Prod.fst = fields.take values.length := by
  induction fields generalizing values with
  | nil => simp
  | cons fh ft ih =>
      cases values with
      | nil => simp
      | cons vh vt => simp [ih]

/-! ## Claim C4 -/

/-- Claim C4, counterexample. For the data row `x` under the field list
`a`, `b`, the built record binds only `a`; the field `b` beyond the
supplied values is absent from the record, not present with the empty
string as the claim asserts. -/
theorem claim_C4_counterexample :
    parseContent "%T\tTBL\n%F\ta\tb\n%R\tx" = [("TBL", [[("a", "x")]])] ∧
      ¬getRaw [("a", "x")] "b" = some "" := by
  constructor
  · rfl
  · decide

/-- Claim C4 (amended): a data row shorter than the active field list
yields a record whose keys are exactly the first `values.length` fields;
fields beyond the supplied values are absent from the record (a lookup
yields undefined, not the empty string). -/
theorem claim_C4_short_row :
    ∀ (fields values : List String) (f : String),
      ¬getRaw (buildRecord fields values) f = none ↔
        f ∈ fields.take values.length := by
  intro fields values f
  rw [getRaw_eq_none_iff, not_not]
  unfold buildRecord
  rw [mem_keys_buildFold, map_fst_zip_eq_take]
  simp

/-! ## Claim C7 -/

/-- Claim C7: the tokenizer is total and tolerant by construction
(`parseContent` is a total function of the input string); a line matching
none of the three markers leaves the state untouched, and a data row
arriving with no active table is dropped without contributing a record. -/
theorem claim_C7_tokenizer_tolerance :
    ∀ (st : PState) (line : String),
      (jsStartsWith line "%T\t" = false → jsStartsWith line "%F\t" = false →
        jsStartsWith line "%R\t" = false → parseStep st line = st) ∧
      (jsStartsWith line "%T\t" = false → jsStartsWith line "%F\t" = false →
        jsStartsWith line "%R\t" = true → st.currentTable = none →
        parseStep st line = st) := by
  intro st line
  constructor
  · intro h1 h2 h3
    simp [parseStep, h1, h2, h3]
  · intro h1 h2 h3 htab
    simp [parseStep, h1, h2, h3, htab]

/-- Claim C7, witness: a stray line and an orphan data row both leave the
empty tokenizer state untouched. -/
theorem claim_C7_witness :
    parseStep ⟨[], none, []⟩ "some stray line" = ⟨[], none, []⟩ ∧
    parseStep ⟨[], none, []⟩ "%R\tv1\tv2" = ⟨[], none, []⟩ :=
  ⟨(claim_C7_tokenizer_tolerance ⟨[], none, []⟩ "some stray line").1
      (by decide) (by decide) (by decide),
    (claim_C7_tokenizer_tolerance ⟨[], none, []⟩ "%R\tv1\tv2").2
      (by decide) (by decide) (by decide) rfl⟩

/-! ## Claim C3 -/

/-- Claim C3: an activity is returned by `getCriticalActivities` exactly
when its converted total float is strictly equal to 0 or its driving-path
flag is the string `Y`; in particular the concrete activity with float −5
and flag `N` is not critical (the boundary is float = 0, not float ≤ 0). -/
theorem claim_C3_critical_predicate :
    (∀ (activities : List Rec) (a : Rec),
        a ∈ getCriticalActivities activities ↔
          a ∈ activities ∧
            (convertToNumberV (getField a "total_float_hr_cnt") = JSNum.fin 0 ∨
              jsEqStr (getField a "driving_path_flag") "Y" = true)) ∧
    negFloatActivity ∉ getCriticalActivities [negFloatActivity] := by
  constructor
  · intro activities a
    simp [getCriticalActivities, List.mem_filter]
  · decide

/-! ## Claim C9 -/

/-- Claim C9 (implicit): an activity whose `total_float_hr_cnt` field is
absent, null, or the empty string is classified as critical, because the
numeric coercion maps each of those to 0 and float 0 is critical. -/
theorem claim_C9_missing_float_is_critical :
    ∀ (activities : List Rec) (a : Rec), a ∈ activities →
      (getField a "total_float_hr_cnt" = none ∨
        getField a "total_float_hr_cnt" = some TypedValue.vNull ∨
        getField a "total_float_hr_cnt" = some (TypedValue.vStr "")) →
      a ∈ getCriticalActivities activities := by
  intro activities a ha hfloat
  refine List.mem_filter.mpr ⟨ha, ?_⟩
  have hnum : convertToNumberV (getField a "total_float_hr_cnt") =
      JSNum.fin 0 := by
    rcases hfloat with h | h | h <;>
      simp [h, convertToNumberV, convertToNumberS]
  simp [hnum]

/-- Claim C9, witness: the concrete activity with no
`total_float_hr_cnt` binding at all lands in the critical set. -/
theorem claim_C9_witness :
    noFloatActivity ∈ getCriticalActivities [noFloatActivity] :=
  claim_C9_missing_float_is_critical [noFloatActivity] noFloatActivity
    (List.mem_singleton.mpr rfl) (Or.inl rfl)

/-! ## Claim C10 -/

/-- Claim C10 (implicit): `getSummaryStats` carries a `durationStats`
block exactly when some activity has a strictly positive converted
duration; for a milestone-only or empty model the field is absent, not
zero-filled. -/
theorem claim_C10_duration_stats_presence :
    ∀ rd : Reader,
      (getSummaryStats rd).durationStats.isSome =
        rd.activities.any (fun a =>
          JSNum.ltB (.fin 0) (convertToNumberV (getField a "target_drtn_hr_cnt"))) := by
  intro rd
  unfold getSummaryStats
  simp only []
  split_ifs with h
  · simp only [Option.isSome_some, eq_comm (a := true), List.any_eq_true]
    rcases List.exists_mem_of_length_pos h with ⟨d, hd⟩
    rcases List.mem_filter.mp hd with ⟨hmem, hpos⟩
    rcases List.mem_map.mp hmem with ⟨a, ha, rfl⟩
    exact ⟨a, ha, hpos⟩
  · simp only [Option.isSome_none, eq_comm (a := false), List.any_eq_false]
    intro a ha hpos
    apply h
    apply List.length_pos_of_mem
    exact List.mem_filter.mpr ⟨List.mem_map.mpr ⟨a, ha, rfl⟩, hpos⟩

/-! ## Claim C6 -/

/-- Lookup commutes with the per-entry conversion map. -/
theorem getField_convertTypes (record : RawRec) (sc : Schema) (f : String) :
    getField (convertTypes record sc) f =
      (getRaw record f).map (fun v =>
        match schemaLookup sc f with
        | none => TypedValue.vStr v
        | some t => applyFieldType t v) := by
  induction record with
  | nil => rfl
  | cons p r ih =>
      by_cases hp : p.1 = f
      · subst hp
        simp [convertTypes, getField, getRaw, List.find?]
      · simpa [convertTypes, getField, getRaw, List.find?, hp] using ih

/-- `convertToNumber` of a raw string is never NaN (and never null). -/
theorem convertToNumberS_ne_nan (v : String) :
    convertToNumberS v ≠ JSNum.nan := by
  unfold convertToNumberS
  split_ifs
  · simp
  · cases h : strToNumber v <;> simp

/-- Claim C6: schema-typed projection. A number field with an empty or
unparsable raw value becomes the number 0 and is in every case a non-NaN
number (never null); a date field with an empty or unparsable value becomes
null; a boolean field is true exactly for the raw strings `Y`, `true`, `1`;
a string field passes through unchanged; a field absent from the schema is
kept as its raw string. -/
theorem claim_C6_schema_projection :
    ∀ (record : RawRec) (sc : Schema) (f v : String),
      getRaw record f = some v →
      ((schemaLookup sc f = some FieldType.tNumber →
          ((v = "" ∨ strToNumber v = JSNum.nan) →
            getField (convertTypes record sc) f =
              some (TypedValue.vNum (JSNum.fin 0))) ∧
          ∃ n, getField (convertTypes record sc) f =
              some (TypedValue.vNum n) ∧ n ≠ JSNum.nan) ∧
        (schemaLookup sc f = some FieldType.tDate →
          (v = "" ∨ parseDateString v = none) →
          getField (convertTypes record sc) f = some TypedValue.vNull) ∧
        (schemaLookup sc f = some FieldType.tBoolean →
          getField (convertTypes record sc) f =
            some (TypedValue.vBool (v = "Y" ∨ v = "true" ∨ v = "1"))) ∧
        (schemaLookup sc f = some FieldType.tString →
          getField (convertTypes record sc) f = some (TypedValue.vStr v)) ∧
        (schemaLookup sc f = none →
          getField (convertTypes record sc) f = some (TypedValue.vStr v))) := by
  intro record sc f v hget
  have hconv := getField_convertTypes record sc f
  rw [hget] at hconv
  refine ⟨?_, ?_, ?_, ?_, ?_⟩
  · intro hsc
    rw [hsc] at hconv
    constructor
    · rintro (rfl | hnan)
      · simpa [applyFieldType, convertToNumberS] using hconv
      · rw [hconv]
        simp [applyFieldType, convertToNumberS, hnan]
    · exact ⟨convertToNumberS v, by simpa [applyFieldType] using hconv,
        convertToNumberS_ne_nan v⟩
  · intro hsc hbad
    rw [hsc] at hconv
    rw [hconv]
    rcases hbad with rfl | hbad
    · simp [applyFieldType, convertToDate]
    · simp [applyFieldType, convertToDate, hbad]
  · intro hsc
    rw [hsc] at hconv
    simpa [applyFieldType] using hconv
  · intro hsc
    rw [hsc] at hconv
    simpa [applyFieldType] using hconv
  · intro hsc
    rw [hsc] at hconv
    simpa using hconv

/-- Claim C6, witness: an empty raw value under a number-typed schema
entry projects to the number 0. -/
theorem claim_C6_witness :
    getField (convertTypes [("x", "")] [("x", FieldType.tNumber)]) "x" =
      some (TypedValue.vNum (JSNum.fin 0)) :=
  ((claim_C6_schema_projection [("x", "")] [("x", FieldType.tNumber)]
    "x" "" rfl).1 rfl).1 (Or.inl rfl)

/-! ## Claim C8 -/

/-- Claim C8: with zero relationships, checks 2 (Leads), 3 (Lags) and
4 (Relationship Types) all report pass — the empty denominator is the
trivially satisfied case, never NaN or a spurious fail — and those are
exactly the statuses at positions 2, 3, 4 of a full assessment run with an
empty relationship list. -/
theorem claim_C8_zero_denominator_pass :
    ∀ (activities assignments : List Rec),
      (checkLeads []).status = Status.pass ∧
      (checkLags []).status = Status.pass ∧
      (checkRelationshipTypes []).status = Status.pass ∧
      ((runDCMA14 activities [] assignments).points.map
          (fun p => p.status))[1]? = some Status.pass ∧
      ((runDCMA14 activities [] assignments).points.map
          (fun p => p.status))[2]? = some Status.pass ∧
      ((runDCMA14 activities [] assignments).points.map
          (fun p => p.status))[3]? = some Status.pass := by
  intro activities assignments
  refine ⟨by decide, by decide, by decide, ?_, ?_, ?_⟩ <;>
    simp [runDCMA14] <;> decide

/-! ## Claim C2 -/

/-- Claim C2: the assessment always runs exactly 14 checks; the summary
score is the rounded percentage of passing checks out of 14 and the grade
follows the fixed thresholds 90/80/70/60; in particular, when all 14
checks pass, the score is 100 and the grade is A. -/
theorem claim_C2_assessment_aggregation :
    ∀ (activities relationships assignments : List Rec),
      (runDCMA14 activities relationships assignments).points.length = 14 ∧
      (runDCMA14 activities relationships assignments).summary.score =
        jsRound
          ((((runDCMA14 activities relationships assignments).points.filter
                (fun p => p.status = Status.pass)).length : ℚ) / 14 * 100) ∧
      (runDCMA14 activities relationships assignments).summary.grade =
        (if (runDCMA14 activities relationships assignments).summary.score ≥ 90
          then "A"
         else if (runDCMA14 activities relationships assignments).summary.score ≥ 80
          then "B"
         else if (runDCMA14 activities relationships assignments).summary.score ≥ 70
          then "C"
         else if (runDCMA14 activities relationships assignments).summary.score ≥ 60
          then "D"
         else "F") ∧
      (((runDCMA14 activities relationships assignments).points.filter
            (fun p => p.status = Status.pass)).length = 14 →
        (runDCMA14 activities relationships assignments).summary.score = 100 ∧
        (runDCMA14 activities relationships assignments).summary.grade = "A") := by
  intro activities relationships assignments
  have hscore0 : (runDCMA14 activities relationships assignments).summary.score =
      jsRound
        (qMul (qDiv
          (((runDCMA14 activities relationships assignments).points.filter
              (fun p => p.status = Status.pass)).length : ℚ) 14) 100) := rfl
  have hscore : (runDCMA14 activities relationships assignments).summary.score =
      jsRound
        ((((runDCMA14 activities relationships assignments).points.filter
              (fun p => p.status = Status.pass)).length : ℚ) / 14 * 100) := by
    rw [hscore0, qDiv_eq, qMul_eq]
  have hgrade : (runDCMA14 activities relationships assignments).summary.grade =
      (if (runDCMA14 activities relationships assignments).summary.score ≥ 90
        then "A"
       else if (runDCMA14 activities relationships assignments).summary.score ≥ 80
        then "B"
       else if (runDCMA14 activities relationships assignments).summary.score ≥ 70
        then "C"
       else if (runDCMA14 activities relationships assignments).summary.score ≥ 60
        then "D"
       else "F") := rfl
  refine ⟨rfl, hscore, hgrade, ?_⟩
  intro hall
  have h100 : (runDCMA14 activities relationships assignments).summary.score =
      100 := by
    rw [hscore0, hall]
    rw [show jsRound (qMul (qDiv ((14 : ℕ) : ℚ) 14) 100) = 100 from by decide]
  refine ⟨h100, ?_⟩
  rw [hgrade, h100]
  norm_num

/-- Claim C2, witness: on the concrete 20-activity model every check
passes, and the theorem yields score 100 and grade A. -/
theorem claim_C2_witness :
    (runDCMA14 c2Acts c2Rels c2Assigns).summary.score = 100 ∧
    (runDCMA14 c2Acts c2Rels c2Assigns).summary.grade = "A" :=
  (claim_C2_assessment_aggregation c2Acts c2Rels c2Assigns).2.2.2 (by decide)

/-! ## Evaluation lemmas for JS numbers on finite values -/

theorem add_fin (a b : ℚ) : JSNum.add (.fin a) (.fin b) = .fin (a + b) := by
  rw [show JSNum.add (.fin a) (.fin b) = .fin (qAdd a b) from rfl, qAdd_eq]

theorem neg_fin (a : ℚ) : JSNum.neg (.fin a) = .fin (-a) := by
  rw [show JSNum.neg (.fin a) = .fin (qNeg a) from rfl, qNeg_eq]

theorem sub_fin (a b : ℚ) : JSNum.sub (.fin a) (.fin b) = .fin (a - b) := by
  rw [JSNum.sub, neg_fin, add_fin, sub_eq_add_neg]

theorem mul_fin (a b : ℚ) : JSNum.mul (.fin a) (.fin b) = .fin (a * b) := by
  rw [show JSNum.mul (.fin a) (.fin b) = .fin (qMul a b) from rfl, qMul_eq]

theorem div_fin (a b : ℚ) (hb : b ≠ 0) :
    JSNum.div (.fin a) (.fin b) = .fin (a / b) := by
  rw [show JSNum.div (.fin a) (.fin b) =
      (if b = 0 then (if a = 0 then JSNum.nan else if 0 < a then .posInf
        else .negInf) else .fin (qDiv a b)) from rfl,
    if_neg hb, qDiv_eq]

theorem min2_posInf_fin (b : ℚ) :
    JSNum.min2 .posInf (.fin b) = .fin b := by
  simp [JSNum.min2, JSNum.leB]

theorem max2_negInf_fin (b : ℚ) :
    JSNum.max2 .negInf (.fin b) = .fin b := by
  simp [JSNum.max2, JSNum.leB]

theorem min2_fin (a b : ℚ) :
    JSNum.min2 (.fin a) (.fin b) = .fin (min a b) := by
  rw [JSNum.min2, if_neg (by simp)]
  by_cases h : a ≤ b
  · rw [if_pos (by simp [JSNum.leB, h]), min_eq_left h]
  · rw [if_neg (by simp [JSNum.leB, h]), min_eq_right (le_of_not_le h)]

theorem max2_fin (a b : ℚ) :
    JSNum.max2 (.fin a) (.fin b) = .fin (max a b) := by
  rw [JSNum.max2, if_neg (by simp)]
  by_cases h : a ≤ b
  · rw [if_pos (by simp [JSNum.leB, h]), max_eq_right h]
  · rw [if_neg (by simp [JSNum.leB, h]), max_eq_left (le_of_not_le h)]

theorem activeIn_iff (a : ActData) (ws s e : ℚ)
    (hs : a.startDate = .fin s) (he : a.endDate = .fin e) :
    activeIn a ws = true ↔ (s ≤ ws + weekInMs ∧ ws ≤ e) := by
  rw [activeIn, hs, he, qAdd_eq]
  simp [JSNum.leB]

theorem overlapRatio_fin (a : ActData) (ws s e : ℚ)
    (hs : a.startDate = .fin s) (he : a.endDate = .fin e) (hlt : s < e) :
    overlapRatio a ws =
      .fin (max 0 (min e (ws + weekInMs) - max s ws) / (e - s)) := by
  rw [overlapRatio]
  simp only [hs, he, qAdd_eq, min2_fin, max2_fin, sub_fin]
  rw [if_pos]
  · rw [div_fin _ _ (sub_ne_zero_of_ne (ne_of_gt hlt))]
  · simp only [JSNum.ltB, decide_eq_true_eq]
    linarith

/-- The single-activity weekly accumulator, evaluated on an active bucket. -/
theorem weeklySum_singleton_fin (a : ActData) (ws s e q : ℚ)
    (hs : a.startDate = .fin s) (he : a.endDate = .fin e)
    (hq : a.targetQty = .fin q) (hlt : s < e)
    (hact : s ≤ ws + weekInMs ∧ ws ≤ e) :
    weeklySum [a] ws (fun x => x.targetQty) =
      .fin (0 + q * (max 0 (min e (ws + weekInMs) - max s ws) / (e - s))) := by
  rw [show weeklySum [a] ws (fun x => x.targetQty) =
      (if activeIn a ws then
        JSNum.add (.fin 0) (JSNum.mul a.targetQty (overlapRatio a ws))
      else .fin 0) from rfl]
  rw [if_pos ((activeIn_iff a ws s e hs he).mpr hact)]
  rw [overlapRatio_fin a ws s e hs he hlt, hq, mul_fin, add_fin]

/-- The curve of a resource whose pairing stage yields exactly one
activity entry spanning exactly 14 days with target quantity 70: three
weekly buckets carrying 35, 35 and 0. -/
theorem curve_single_two_week (rd : Reader) (rid : String) (a : ActData)
    (s : ℚ) (h : buildActivityData rd rid = [a])
    (hs : a.startDate = .fin s)
    (he : a.endDate = .fin (s + 1209600000))
    (hq : a.targetQty = .fin 70) :
    (getResourceCurve rd rid).timeBasedData.map
        (fun tp => (tp.date, tp.weeklyTargetQty)) =
      [(s, .fin 35), (s + 604800000, .fin 35), (s + 1209600000, .fin 0)] := by
  have hweek : weekInMs = 604800000 := rfl
  unfold getResourceCurve
  rw [h]
  rw [if_neg (by simp)]
  rw [List.mergeSort_singleton]
  simp only [List.map_cons, List.map_nil, List.foldl_cons, List.foldl_nil]
  rw [hs, he, min2_posInf_fin, max2_negInf_fin]
  have hnb : numBuckets (.fin s) (.fin (s + 1209600000)) = 3 := by
    rw [numBuckets]
    rw [if_pos (by linarith)]
    rw [qSub_eq, qDiv_eq, qFloor_eq, hweek]
    rw [show s + 1209600000 - s = (1209600000 : ℚ) by ring]
    norm_num
    decide
  rw [curveBuckets, hnb]
  rw [show List.range 3 = [0, 1, 2] from rfl]
  simp only [List.map_cons, List.map_nil]
  have hb0 : qAdd s (qMul ((0 : ℕ) : ℚ) weekInMs) = s := by
    rw [qAdd_eq, qMul_eq]
    push_cast
    ring
  have hb1 : qAdd s (qMul ((1 : ℕ) : ℚ) weekInMs) = s + 604800000 := by
    rw [qAdd_eq, qMul_eq, hweek]
    push_cast
    ring
  have hb2 : qAdd s (qMul ((2 : ℕ) : ℚ) weekInMs) = s + 1209600000 := by
    rw [qAdd_eq, qMul_eq, hweek]
    push_cast
    ring
  rw [hb0, hb1, hb2]
  have hlt : s < s + 1209600000 := by linarith
  have hw0 : weeklySum [a] s (fun x => x.targetQty) = .fin 35 := by
    rw [weeklySum_singleton_fin a s s (s + 1209600000) 70 hs he hq hlt
      ⟨by rw [hweek]; linarith, by linarith⟩]
    congr 1
    rw [hweek, max_self,
      min_eq_right (by linarith : s + 604800000 ≤ s + 1209600000)]
    rw [show s + 604800000 - s = (604800000 : ℚ) by ring,
      show s + 1209600000 - s = (1209600000 : ℚ) by ring]
    norm_num
  have hw1 : weeklySum [a] (s + 604800000) (fun x => x.targetQty) =
      .fin 35 := by
    rw [weeklySum_singleton_fin a (s + 604800000) s (s + 1209600000) 70 hs he
      hq hlt ⟨by rw [hweek]; linarith, by linarith⟩]
    congr 1
    rw [hweek]
    rw [show s + 604800000 + 604800000 = s + 1209600000 by ring, min_self,
      max_eq_right (by linarith : s ≤ s + 604800000)]
    rw [show s + 1209600000 - (s + 604800000) = (604800000 : ℚ) by ring,
      show s + 1209600000 - s = (1209600000 : ℚ) by ring]
    norm_num
  have hw2 : weeklySum [a] (s + 1209600000) (fun x => x.targetQty) =
      .fin 0 := by
    rw [weeklySum_singleton_fin a (s + 1209600000) s (s + 1209600000) 70 hs he
      hq hlt ⟨by rw [hweek]; linarith, le_refl _⟩]
    congr 1
    rw [hweek]
    rw [min_eq_left
        (by linarith : s + 1209600000 ≤ s + 1209600000 + 604800000),
      max_eq_right (by linarith : s ≤ s + 1209600000), sub_self]
    norm_num
  simp only [bucketAt, List.map_cons, List.map_nil]
  rw [hw0, hw1, hw2]

/-! ## Claim C5 -/

/-- Claim C5, counterexample: the 14-day, quantity-70 sample resource does
NOT produce two weekly buckets — the loop condition
`currentDate <= projectEndDate` is inclusive, so a third bucket starting at
the window end is emitted with quantity 0. -/
theorem claim_C5_counterexample :
    (getResourceCurve c5Reader "R1").timeBasedData.map
        (fun tp => (tp.date, tp.weeklyTargetQty)) =
      [(0, .fin 35), (604800000, .fin 35), (1209600000, .fin 0)] ∧
    ¬(getResourceCurve c5Reader "R1").timeBasedData.length = 2 := by
  have hbuild : buildActivityData c5Reader "R1" = [c5ActData] := by decide
  have hmain := curve_single_two_week c5Reader "R1" c5ActData 0 hbuild rfl
    (by rw [zero_add]; rfl) rfl
  have hlist : (getResourceCurve c5Reader "R1").timeBasedData.map
      (fun tp => (tp.date, tp.weeklyTargetQty)) =
      [(0, .fin 35), (604800000, .fin 35), (1209600000, .fin 0)] := by
    rw [hmain]
    norm_num
  refine ⟨hlist, ?_⟩
  have hlen := congrArg List.length hlist
  simp only [List.length_map] at hlen
  rw [hlen]
  decide

/-- Claim C5 (amended): for a resource whose pairing stage yields exactly
one activity entry spanning exactly 14 days with target quantity 70,
`getResourceCurve` produces three weekly buckets in chronological order,
one per 7-day step inclusive of the window end: the two full weeks carry
weeklyTargetQty 35 each (overlap ratio 0.5 + 0.5) and the final
zero-quantity bucket starts at the window end. -/
theorem claim_C5_two_week_curve (rd : Reader) (rid : String) (a : ActData)
    (s : ℚ) (h : buildActivityData rd rid = [a])
    (hs : a.startDate = .fin s)
    (he : a.endDate = .fin (s + 1209600000))
    (hq : a.targetQty = .fin 70) :
    (getResourceCurve rd rid).timeBasedData.map
        (fun tp => (tp.date, tp.weeklyTargetQty)) =
      [(s, .fin 35), (s + 604800000, .fin 35), (s + 1209600000, .fin 0)] :=
  curve_single_two_week rd rid a s h hs he hq

/-- Claim C5, witness: the theorem applied to the concrete sample
resource. -/
theorem claim_C5_witness :
    (getResourceCurve c5Reader "R1").timeBasedData.map
        (fun tp => (tp.date, tp.weeklyTargetQty)) =
      [((0 : ℚ), .fin 35), ((0 : ℚ) + 604800000, .fin 35),
        ((0 : ℚ) + 1209600000, .fin 0)] :=
  claim_C5_two_week_curve c5Reader "R1" c5ActData 0 (by decide) rfl
    (by rw [zero_add]; rfl) rfl

/-! ## Claim C1: arithmetic and fold lemmas -/

/-- The clamped bucket overlap is the increment of the clamp-into-span
function between the bucket bounds. -/
theorem clamp_diff (s e u v : ℚ) (hse : s ≤ e) (huv : u ≤ v) :
    max 0 (min e v - max s u) = max s (min e v) - max s (min e u) := by
  simp only [min_def, max_def]
  split_ifs <;> linarith

/-- Over a contiguous weekly grid covering the activity span, the clamped
overlaps telescope to the whole span. -/
theorem sum_clamp (s e S w : ℚ) (hw : 0 < w) (hse : s < e) (n : ℕ)
    (h0 : S ≤ s) (hn : e ≤ S + n * w) :
    ∑ k ∈ Finset.range n,
        max 0 (min e (S + k * w + w) - max s (S + k * w)) = e - s := by
  have key : ∀ k : ℕ,
      max 0 (min e (S + k * w + w) - max s (S + k * w)) =
        max s (min e (S + (k + 1 : ℕ) * w)) - max s (min e (S + k * w)) := by
    intro k
    rw [show S + ((k + 1 : ℕ) : ℚ) * w = S + (k : ℚ) * w + w by push_cast; ring]
    exact clamp_diff s e (S + k * w) (S + k * w + w) (le_of_lt hse)
      (by linarith)
  rw [Finset.sum_congr rfl (fun k _ => key k),
    Finset.sum_range_sub (fun k => max s (min e (S + (k : ℚ) * w)))]
  rw [show S + ((0 : ℕ) : ℚ) * w = S by push_cast; ring]
  rw [min_eq_right (by linarith : S ≤ e), max_eq_left h0,
    min_eq_left hn, max_eq_right (le_of_lt hse)]

theorem foldl_add_fin_map (l : List ℚ) (c : ℚ) :
    ((l.map JSNum.fin).foldl JSNum.add (.fin c)) = .fin (c + l.sum) := by
  induction l generalizing c with
  | nil => simp
  | cons q l ih =>
      simp only [List.map_cons, List.foldl_cons, add_fin, ih, List.sum_cons]
      rw [add_assoc]

theorem foldl_min2_map_fin (l : List ℚ) (c : ℚ) :
    ((l.map JSNum.fin).foldl JSNum.min2 (.fin c)) = .fin (l.foldl min c) := by
  induction l generalizing c with
  | nil => rfl
  | cons q l ih => simp only [List.map_cons, List.foldl_cons, min2_fin, ih]

theorem foldl_max2_map_fin (l : List ℚ) (c : ℚ) :
    ((l.map JSNum.fin).foldl JSNum.max2 (.fin c)) = .fin (l.foldl max c) := by
  induction l generalizing c with
  | nil => rfl
  | cons q l ih => simp only [List.map_cons, List.foldl_cons, max2_fin, ih]

theorem foldl_min_le_init (l : List ℚ) (c : ℚ) : l.foldl min c ≤ c := by
  induction l generalizing c with
  | nil => simp
  | cons q l ih => exact le_trans (ih (min c q)) (min_le_left c q)

theorem foldl_min_le_mem (l : List ℚ) :
    ∀ (c x : ℚ), x ∈ l → l.foldl min c ≤ x := by
  induction l with
  | nil => intro c x hx; cases hx
  | cons q l ih =>
      intro c x hx
      rcases List.mem_cons.mp hx with rfl | hx'
      · exact le_trans (foldl_min_le_init l (min c x)) (min_le_right c x)
      · exact ih (min c q) x hx' 

theorem le_foldl_max_init (l : List ℚ) (c : ℚ) : c ≤ l.foldl max c := by
  induction l generalizing c with
  | nil => simp
  | cons q l ih => exact le_trans (le_max_left c q) (ih (max c q))

theorem le_foldl_max_mem (l : List ℚ) :
    ∀ (c x : ℚ), x ∈ l → x ≤ l.foldl max c := by
  induction l with
  | nil => intro c x hx; cases hx
  | cons q l ih =>
      intro c x hx
      rcases List.mem_cons.mp hx with rfl | hx'
      · exact le_trans (le_max_right c x) (le_foldl_max_init l (max c x))
      · exact ih (max c q) x hx' 

theorem listsum_map_range (f : ℕ → ℚ) (n : ℕ) :
    ((List.range n).map f).sum = ∑ k ∈ Finset.range n, f k := by
  induction n with
  | zero => simp
  | succ n ih =>
      rw [List.range_succ, Finset.sum_range_succ, List.map_append,
        List.sum_append, ih]
      simp

theorem sum_comm_list (n : ℕ) (l : List ActData) (F : ActData → ℕ → ℚ) :
    ∑ k ∈ Finset.range n, (l.map (fun a => F a k)).sum =
      (l.map (fun a => ∑ k ∈ Finset.range n, F a k)).sum := by
  induction l with
  | nil => simp
  | cons a l ih =>
      simp only [List.map_cons, List.sum_cons, Finset.sum_add_distrib, ih]

theorem numBuckets_bound (S E : ℚ) (hSE : S ≤ E) :
    E < S + (numBuckets (.fin S) (.fin E) : ℚ) * weekInMs := by
  rw [numBuckets, if_pos hSE]
  have hw : (0 : ℚ) < weekInMs := by norm_num [weekInMs]
  have hF : qFloor (qDiv (qSub E S) weekInMs) = ⌊(E - S) / weekInMs⌋ := by
    rw [qSub_eq, qDiv_eq, qFloor_eq]
  have hnn : (0 : ℚ) ≤ (E - S) / weekInMs :=
    div_nonneg (by linarith) (le_of_lt hw)
  have hFnn : 0 ≤ qFloor (qDiv (qSub E S) weekInMs) := by
    rw [hF]
    exact Int.floor_nonneg.mpr hnn
  have hcast : (((qFloor (qDiv (qSub E S) weekInMs)).toNat + 1 : ℕ) : ℚ) =
      ((⌊(E - S) / weekInMs⌋ : ℤ) : ℚ) + 1 := by
    have h2 : (((qFloor (qDiv (qSub E S) weekInMs)).toNat + 1 : ℕ) : ℤ) =
        ⌊(E - S) / weekInMs⌋ + 1 := by
      rw [← hF]
      omega
    exact_mod_cast h2
  rw [hcast]
  have hlt := Int.lt_floor_add_one ((E - S) / weekInMs)
  have := (div_lt_iff₀ hw).mp hlt
  linarith

/-- The inner accumulation of `weeklySum` on the target-quantity selector,
evaluated over a list of finite activities: the active-filter guard agrees
with the clamped-overlap formula, whose value is 0 whenever the filter
rejects the activity. -/
theorem weeklyFold_eval (l : List ActData) (ws : ℚ) :
    ∀ c : ℚ, (∀ a ∈ l, finActData a) →
      l.foldl (fun acc a =>
          if activeIn a ws then
            JSNum.add acc (JSNum.mul a.targetQty (overlapRatio a ws))
          else acc) (.fin c) =
        .fin (c + (l.map (fun a => qContrib a ws)).sum) := by
  induction l with
  | nil => intro c _; simp
  | cons a l ih =>
      intro c hl
      obtain ⟨⟨s, hs⟩, ⟨e, he⟩, ⟨q, hq⟩, hlt0⟩ := hl a (List.mem_cons_self a l)
      have hlt : s < e := by
        rw [hs, he] at hlt0
        simpa [finVal] using hlt0
      have hstep : (if activeIn a ws then
          JSNum.add (.fin c) (JSNum.mul a.targetQty (overlapRatio a ws))
        else .fin c) = .fin (c + qContrib a ws) := by
        by_cases hact : activeIn a ws = true
        · rw [if_pos hact, overlapRatio_fin a ws s e hs he hlt, hq, mul_fin,
            add_fin]
          rw [qContrib, hs, he, hq]
          rw [show finVal (JSNum.fin s) = s from rfl,
            show finVal (JSNum.fin e) = e from rfl,
            show finVal (JSNum.fin q) = q from rfl, mul_div_assoc]
        · rw [if_neg hact]
          have hnact := hact
          rw [activeIn_iff a ws s e hs he] at hnact
          push_neg at hnact
          have hzero : qContrib a ws = 0 := by
            rw [qContrib, hs, he, hq]
            rw [show finVal (JSNum.fin s) = s from rfl,
              show finVal (JSNum.fin e) = e from rfl,
              show finVal (JSNum.fin q) = q from rfl]
            have hneg : min e (ws + weekInMs) - max s ws ≤ 0 := by
              by_cases hcase : s ≤ ws + weekInMs
              · have hwe := hnact hcase
                have h1 : min e (ws + weekInMs) ≤ e := min_le_left _ _
                have h2 : ws ≤ max s ws := le_max_right _ _
                linarith
              · have h1 : min e (ws + weekInMs) ≤ ws + weekInMs :=
                  min_le_right _ _
                have h2 : s ≤ max s ws := le_max_left _ _
                linarith
            rw [max_eq_left hneg]
            simp
          rw [hzero, add_zero]
      rw [List.foldl_cons, hstep, ih (c + qContrib a ws)
        (fun b hb => hl b (List.mem_cons_of_mem a hb))]
      rw [List.map_cons, List.sum_cons, add_assoc]

/-- Per activity, the contributions over the whole bucket grid sum to the
full target quantity. -/
theorem activity_total (a : ActData) (S : ℚ) (n : ℕ) (s e q : ℚ)
    (hs : a.startDate = .fin s) (he : a.endDate = .fin e)
    (hq : a.targetQty = .fin q) (hlt : s < e) (h0 : S ≤ s)
    (hn : e ≤ S + n * weekInMs) :
    ∑ k ∈ Finset.range n, qContrib a (S + k * weekInMs) = q := by
  have hterm : ∀ k : ℕ, qContrib a (S + k * weekInMs) =
      q * (max 0 (min e (S + k * weekInMs + weekInMs) -
        max s (S + k * weekInMs))) / (e - s) := by
    intro k
    rw [qContrib, hs, he, hq]
    rfl
  rw [Finset.sum_congr rfl (fun k _ => hterm k)]
  have hw : (0 : ℚ) < weekInMs := by norm_num [weekInMs]
  rw [show (fun k : ℕ => q * (max 0 (min e (S + k * weekInMs + weekInMs) -
      max s (S + k * weekInMs))) / (e - s)) = (fun k : ℕ =>
      q * ((max 0 (min e (S + k * weekInMs + weekInMs) -
        max s (S + k * weekInMs))) / (e - s))) from by
    funext k
    rw [mul_div_assoc]]
  rw [← Finset.mul_sum, ← Finset.sum_div]
  rw [sum_clamp s e S weekInMs hw hlt n h0 hn]
  rw [div_self (ne_of_gt (by linarith)), mul_one]

/-- Conservation over the bucket grid for a sorted, nonempty list of
finite activities: the weekly target quantities summed over every bucket
equal the total target quantity. -/
theorem curveBuckets_conservation (L : List ActData)
    (hL : ∀ a ∈ L, finActData a) (hne : L ≠ []) :
    ((curveBuckets L ((L.map (fun a => a.startDate)).foldl JSNum.min2 .posInf)
        ((L.map (fun a => a.endDate)).foldl JSNum.max2 .negInf)).map
          (fun tp => tp.weeklyTargetQty)).foldl JSNum.add (.fin 0) =
      .fin ((L.map (fun a => finVal a.targetQty)).sum) := by
  obtain ⟨a0, L0, rfl⟩ := List.exists_cons_of_ne_nil hne
  set L := a0 :: L0 with hLdef
  have hmapS : L.map (fun a => a.startDate) =
      (L.map (fun a => finVal a.startDate)).map JSNum.fin := by
    rw [List.map_map]
    refine List.map_congr_left ?_
    intro a ha
    obtain ⟨⟨s, hs⟩, _, _, _⟩ := hL a ha
    simp [hs, finVal]
  have hmapE : L.map (fun a => a.endDate) =
      (L.map (fun a => finVal a.endDate)).map JSNum.fin := by
    rw [List.map_map]
    refine List.map_congr_left ?_
    intro a ha
    obtain ⟨_, ⟨e, he⟩, _, _⟩ := hL a ha
    simp [he, finVal]
  set S : ℚ := (L0.map (fun a => finVal a.startDate)).foldl min
    (finVal a0.startDate) with hSdef
  set E : ℚ := (L0.map (fun a => finVal a.endDate)).foldl max
    (finVal a0.endDate) with hEdef
  have hws : (L.map (fun a => a.startDate)).foldl JSNum.min2 .posInf =
      .fin S := by
    rw [hmapS, hLdef]
    rw [List.map_cons, List.map_cons, List.foldl_cons, min2_posInf_fin,
      foldl_min2_map_fin]
  have hwe : (L.map (fun a => a.endDate)).foldl JSNum.max2 .negInf =
      .fin E := by
    rw [hmapE, hLdef]
    rw [List.map_cons, List.map_cons, List.foldl_cons, max2_negInf_fin,
      foldl_max2_map_fin]
  have hSle : ∀ a ∈ L, S ≤ finVal a.startDate := by
    intro a ha
    rcases List.mem_cons.mp ha with rfl | ha'
    · exact foldl_min_le_init _ _
    · exact foldl_min_le_mem _ _ _
        (List.mem_map.mpr ⟨a, ha', rfl⟩)
  have hEge : ∀ a ∈ L, finVal a.endDate ≤ E := by
    intro a ha
    rcases List.mem_cons.mp ha with rfl | ha'
    · exact le_foldl_max_init _ _
    · exact le_foldl_max_mem _ _ _
        (List.mem_map.mpr ⟨a, ha', rfl⟩)
  have hSE : S ≤ E := by
    have h1 := hSle a0 (List.mem_cons_self a0 L0)
    have h2 := hEge a0 (List.mem_cons_self a0 L0)
    have h3 := (hL a0 (List.mem_cons_self a0 L0)).2.2.2
    linarith
  have hcover : ∀ a ∈ L, finVal a.endDate ≤
      S + (numBuckets (.fin S) (.fin E) : ℚ) * weekInMs := by
    intro a ha
    have := numBuckets_bound S E hSE
    have := hEge a ha
    linarith
  rw [hws, hwe, curveBuckets]
  have hbq : ∀ k : ℕ,
      (bucketAt L (qAdd S (qMul (k : ℚ) weekInMs))).weeklyTargetQty =
        .fin (0 + (L.map (fun a => qContrib a (S + k * weekInMs))).sum) := by
    intro k
    have hb : qAdd S (qMul (k : ℚ) weekInMs) = S + k * weekInMs := by
      rw [qMul_eq, qAdd_eq]
    rw [show (bucketAt L (qAdd S (qMul (k : ℚ) weekInMs))).weeklyTargetQty =
        L.foldl (fun acc a =>
          if activeIn a (qAdd S (qMul (k : ℚ) weekInMs)) then
            JSNum.add acc (JSNum.mul a.targetQty
              (overlapRatio a (qAdd S (qMul (k : ℚ) weekInMs))))
          else acc) (.fin 0) from rfl]
    rw [hb]
    exact weeklyFold_eval L (S + k * weekInMs) 0 hL
  rw [show ((List.range (numBuckets (.fin S) (.fin E))).map
      (fun (k : ℕ) => bucketAt L (qAdd S (qMul (k : ℚ) weekInMs)))).map
        (fun tp => tp.weeklyTargetQty) =
      ((List.range (numBuckets (.fin S) (.fin E))).map
        (fun (k : ℕ) => 0 +
          (L.map (fun a => qContrib a (S + k * weekInMs))).sum)).map
            JSNum.fin from by
    rw [List.map_map, List.map_map]
    exact List.map_congr_left (fun k _ => hbq k)]
  rw [foldl_add_fin_map, listsum_map_range]
  congr 1
  simp only [zero_add]
  rw [sum_comm_list]
  refine congrArg List.sum (List.map_congr_left ?_)
  intro a ha
  obtain ⟨⟨s, hs⟩, ⟨e, he⟩, ⟨q, hq⟩, hlt0⟩ := hL a ha
  have hlt : s < e := by
    rw [hs, he] at hlt0
    simpa [finVal] using hlt0
  have h0 : S ≤ s := by
    have := hSle a ha
    rwa [hs, show finVal (JSNum.fin s) = s from rfl] at this
  have hn : e ≤ S + (numBuckets (.fin S) (.fin E) : ℚ) * weekInMs := by
    have := hcover a ha
    rwa [he, show finVal (JSNum.fin e) = e from rfl] at this
  rw [activity_total a S (numBuckets (.fin S) (.fin E)) s e q hs he hq hlt
    h0 hn, hq]
  rfl

/-! ## Claim C1 -/

/-- Claim C1: resource-curve conservation. If every activity entry paired
to an assignment of the resource has finite start and end time values with
a strictly positive span (so every span lies inside the window derived from
those same entries), then the weekly target quantities summed over all
buckets of `getResourceCurve` equal the sum of the contributing
assignments' target quantities — the overlap ratios of each activity across
the buckets it touches sum to exactly 1 under exact arithmetic. -/
theorem claim_C1_curve_conservation (rd : Reader) (rid : String)
    (hfin : ∀ a ∈ buildActivityData rd rid, finActData a) :
    (((getResourceCurve rd rid).timeBasedData.map
        (fun tp => tp.weeklyTargetQty)).foldl JSNum.add (.fin 0)) =
      .fin (((buildActivityData rd rid).map
        (fun a => finVal a.targetQty)).sum) := by
  by_cases hempty : buildActivityData rd rid = []
  · rw [getResourceCurve, hempty]
    simp
  · rw [getResourceCurve]
    rw [if_neg (by simpa [List.isEmpty_iff] using hempty)]
    have hperm := List.mergeSort_perm (buildActivityData rd rid)
      (fun a b => JSNum.leB a.startDate b.startDate)
    have hL : ∀ a ∈ (buildActivityData rd rid).mergeSort
        (fun a b => JSNum.leB a.startDate b.startDate), finActData a :=
      fun a ha => hfin a (List.mem_mergeSort.mp ha)
    have hne : (buildActivityData rd rid).mergeSort
        (fun a b => JSNum.leB a.startDate b.startDate) ≠ [] := by
      intro hcontra
      have hpn := hperm
      rw [hcontra] at hpn
      exact hempty hpn.symm.eq_nil
    rw [curveBuckets_conservation _ hL hne]
    congr 1
    exact (hperm.map (fun a => finVal a.targetQty)).sum_eq

/-- Claim C1, witness: the sample single-assignment resource satisfies the
hypotheses and its curve conserves the target quantity 70. -/
theorem claim_C1_witness :
    (((getResourceCurve c5Reader "R1").timeBasedData.map
        (fun tp => tp.weeklyTargetQty)).foldl JSNum.add (.fin 0)) =
      .fin (((buildActivityData c5Reader "R1").map
        (fun a => finVal a.targetQty)).sum) :=
  claim_C1_curve_conservation c5Reader "R1" (by
    rw [show buildActivityData c5Reader "R1" = [c5ActData] from by decide]
    intro a ha
    rcases List.mem_singleton.mp ha with rfl
    exact ⟨⟨0, rfl⟩, ⟨1209600000, rfl⟩, ⟨70, rfl⟩, by norm_num [finVal,
      c5ActData]⟩)

end Chronos
